import Mathlib

/-!
Verification of the endpoint-discovery-and-traversal engine of the
`agama-demo` REST-API dumper (`src/agama-dumper.ts`).

The TypeScript program is shallowly embedded: the snapshot object `data`
becomes an insertion-ordered association list of JSON values, the sequence of
HTTP requests and stderr diagnostics becomes an explicit event trace, and each
`async` function becomes a state-passing function returning
`Except String α × St` (a rejected promise is `Except.error`, carrying the
rejection message).  The HTTP server is an oracle: `Server.get` maps the
current UI locale and a request path to a canned result, `Server.patchStatus`
gives the HTTP status of the locale-switch PATCH, and `Server.authStatus` /
`Server.authToken` describe the login POST.  The debug-only stderr line
printed by `api` on a failed download (`options.debug`) is diagnostics output
elided from the model; every other warning line is kept as a `warn` event.
-/

set_option linter.unusedVariables false
set_option linter.unreachableTactic false
set_option linter.unusedTactic false
set_option autoImplicit false

namespace Agama

/-- JSON values, as produced by `JSON.parse`: objects are insertion-ordered
association lists (JavaScript object key order). -/
inductive JVal where
  | null
  | bool (b : Bool)
  | num (n : Int)
  | str (s : String)
  | arr (elems : List JVal)
  | obj (fields : List (String × JVal))
deriving Repr

/-- The snapshot object `data`: a JavaScript object, keyed by request key. -/
abbrev Data := List (String × JVal)

/-- JavaScript property read `d[k]` on an object: first binding wins
(`JSON.parse` already collapses duplicate keys, so keys are unique). -/
def getKey : Data → String → Option JVal
  | [], _ => none
  | (k', v') :: rest, k => if k' = k then some v' else getKey rest k

/-- JavaScript property write `d[k] = v`: replaces an existing binding in
place (key order preserved), otherwise appends the new binding at the end. -/
def setKey : Data → String → JVal → Data
  | [], k, v => [(k, v)]
  | (k', v') :: rest, k, v =>
      if k' = k then (k, v) :: rest else (k', v') :: setKey rest k v

/-- JavaScript truthiness of a value: `null`, `false`, `0` and `""` are
falsy; arrays and objects are always truthy. -/
def jTruthy : JVal → Bool
  | .null => false
  | .bool b => b
  | .num n => n != 0
  | .str s => s != ""
  | .arr _ => true
  | .obj _ => true

/-- Truthiness of a possibly-absent property (`undefined` is falsy). -/
def jTruthyOpt : Option JVal → Bool
  | none => false
  | some v => jTruthy v

/-- JavaScript property read `v.k`: a field of an object, `undefined`
(modelled as `null`, which is equally falsy) otherwise. -/
def jGet (v : JVal) (k : String) : JVal :=
  match v with
  | .obj fs => (getKey fs k).getD .null
  | _ => .null

/-- Property read through a possibly-absent parent (`undefined` if absent). -/
def jGetOpt (v : Option JVal) (k : String) : JVal :=
  match v with
  | some v => jGet v k
  | none => .null

mutual

/-- JavaScript string coercion `String(v)` of a JSON value (arrays join their
elements with commas, rendering `null` elements as the empty string). -/
def jToStr : JVal → String
  | .null => "null"
  | .bool b => if b then "true" else "false"
  | .num n => toString n
  | .str s => s
  | .arr xs => jToStrArr xs
  | .obj _ => "[object Object]"

/-- `Array.prototype.join(",")` over coerced elements. -/
def jToStrArr : List JVal → String
  | [] => ""
  | [x] => jToStrElem x
  | x :: xs => jToStrElem x ++ "," ++ jToStrArr xs

/-- One element under `join`: `null` renders as the empty string. -/
def jToStrElem : JVal → String
  | .null => ""
  | v => jToStr v

end

/-- `for (const k in v)` key/value pairs: own enumerable entries of an
object; index/element pairs of an array; nothing for primitives. -/
def jEntries : JVal → List (String × JVal)
  | .obj fs => fs
  | .arr xs => xs.enum.map (fun p => (toString p.1, p.2))
  | _ => []

/-- The values visited by `for (const idx in v) ... v[idx]`. -/
def jForInVals (v : JVal) : List JVal := (jEntries v).map Prod.snd

/-- The keys visited by `for (const k in v)`. -/
def jForInKeys (v : JVal) : List String := (jEntries v).map Prod.fst

/-- Hex digit used by `encodeURIComponent` percent-escapes (upper case). -/
def hexDigit (n : Nat) : Char :=
  if n < 10 then Char.ofNat (48 + n) else Char.ofNat (55 + n)

/-- `%XX` escape of one byte. -/
def percentByte (b : Nat) : String :=
  String.mk ['%', hexDigit (b / 16), hexDigit (b % 16)]

/-- UTF-8 bytes of one Unicode code point. -/
def utf8Bytes (c : Char) : List Nat :=
  let n := c.toNat
  if n < 0x80 then [n]
  else if n < 0x800 then [0xC0 + n / 64, 0x80 + n % 64]
  else if n < 0x10000 then [0xE0 + n / 4096, 0x80 + n / 64 % 64, 0x80 + n % 64]
  else [0xF0 + n / 262144, 0x80 + n / 4096 % 64, 0x80 + n / 64 % 64, 0x80 + n % 64]

/-- The characters `encodeURIComponent` leaves unescaped
(ECMA-262 `uriUnescaped`): alphanumerics and `- _ . ! ~ * ' ( )`. -/
def uriUnescaped (c : Char) : Bool :=
  (65 ≤ c.toNat && c.toNat ≤ 90) || (97 ≤ c.toNat && c.toNat ≤ 122) ||
  (48 ≤ c.toNat && c.toNat ≤ 57) ||
  c = '-' || c = '_' || c = '.' || c = '!' || c = '~' || c = '*' ||
  c.toNat = 39 || c = '(' || c = ')'

/-- ECMAScript `encodeURIComponent`: percent-escapes the UTF-8 bytes of every
character outside the unescaped set. -/
def encodeURIComponent (s : String) : String :=
  s.data.foldl
    (fun acc c =>
      if uriUnescaped c then acc.push c
      else acc ++ String.join ((utf8Bytes c).map percentByte))
    ""

/-- `path.replace(/\/$/, "")`: drop one trailing slash, if any. -/
def trimSlash (p : String) : String :=
  match p.data.getLast? with
  | some '/' => String.mk p.data.dropLast
  | _ => p

/-- Does the character list start with the given pattern? -/
def startsWithChars : List Char → List Char → Bool
  | _, [] => true
  | [], _ :: _ => false
  | c :: cs, p :: ps => c == p && startsWithChars cs ps

/-- Does the character list contain the pattern as a contiguous sublist? -/
def containsChars : List Char → List Char → Bool
  | [], pat => pat.isEmpty
  | c :: cs, pat => startsWithChars (c :: cs) pat || containsChars cs pat

/-- `name.match(/re/)` truthiness for the literal patterns `zfcp` / `dasd`:
substring containment. -/
def strMatch (s pat : String) : Bool := containsChars s.data pat.data

/-- Observable actions of one run, in program order: HTTP requests, stderr
warnings, and the final output write (to the `--output` file, or stdout). -/
inductive Event where
  | postAuth
  | get (p : String)
  | patchLocale (uiLocale : String)
  | warn (msg : String)
  | writeOutput (file : Option String)
deriving Repr, DecidableEq

/-- The request paths of the GET events of a trace, in order. -/
def getPaths (es : List Event) : List String :=
  es.filterMap (fun e => match e with | .get p => some p | _ => none)

/-- Result of one GET as seen by `api`: an HTTP 200 whose body parses as JSON,
an HTTP 200 with a non-JSON content type (carried for the warning line), or a
rejection (non-200 status or transport error) with the rejection message. -/
inductive ApiResult where
  | ok (v : JVal)
  | okNonJson (contentType : String)
  | err (msg : String)

/-- The value `api` resolves to for a non-rejecting result. -/
def responseVal : ApiResult → JVal
  | .ok v => v
  | .okNonJson _ => .null
  | .err _ => .null

/-- The live Agama server, as an oracle.  `get` receives the server's current
UI locale (set by the last successful locale-switch PATCH, initially
`initLocale`) and the request path, so that localized endpoints can answer
differently per locale. -/
structure Server where
  authStatus : Nat
  authToken : String
  get : String → String → ApiResult
  patchStatus : String → Nat
  initLocale : String

/-- Mutable run state: the snapshot object `data`, the event trace so far,
and the server's current UI locale. -/
structure St where
  data : Data
  events : List Event
  locale : String

/-- Append one event to the trace. -/
def pushEv (s : St) (e : Event) : St := { s with events := s.events ++ [e] }

/-- `warn(msg)`: one stderr line. -/
def warnEv (s : St) (msg : String) : St := pushEv s (.warn msg)

/-- `login(url, password)`: POST `/api/auth`; any status other than 200
rejects with `"Login failed"`, otherwise resolves to the token from the
response body. -/
def login (srv : Server) (s : St) : Except String String × St :=
  let s := pushEv s .postAuth
  if srv.authStatus = 200 then (.ok srv.authToken, s)
  else (.error "Login failed", s)

/-- `api(url, token)`: one authenticated GET.  A non-200 status or transport
error rejects with the rejection message; a 200 JSON body resolves to the
parsed value; a 200 non-JSON body logs a warning and resolves to `null`. -/
def api (srv : Server) (p : String) (token : String) (s : St) :
    Except String JVal × St :=
  let s := pushEv s (.get p)
  match srv.get s.locale p with
  | .ok v => (.ok v, s)
  | .okNonJson ct => (.ok .null, warnEv s ("Ignoring " ++ ct ++ " content"))
  | .err m => (.error m, s)

/-- Sequencing of two awaited steps: a rejection short-circuits, keeping the
state (trace and snapshot) accumulated so far. -/
def andThen {α β : Type} (r : Except String α × St)
    (f : α → St → Except String β × St) : Except String β × St :=
  match r with
  | (.error m, s) => (.error m, s)
  | (.ok a, s) => f a s

/-- The recording step of `apiDownload`: directly under the trimmed path, or
nested under the language tag when one is given — `if (!data[language])
data[language] = ...` creates the per-language object on first use, and the
property assignment `data[language][requestPath] = res` on a truthy
non-object value is a silent no-op. -/
def recordResult (d : Data) (language : Option String) (requestPath : String)
    (res : JVal) : Data :=
  match language with
  | none => setKey d requestPath res
  | some lang =>
      let d1 :=
        if jTruthyOpt (getKey d lang) then d else setKey d lang (.obj [])
      match getKey d1 lang with
      | some (.obj fs) => setKey d1 lang (.obj (setKey fs requestPath res))
      | _ => d1

/-- `apiDownload(url, path, token, data, language?)`: warn, trim the trailing
slash, GET, and record the result under the trimmed request path (nested
under the language tag when one is given). -/
def apiDownload (srv : Server) (p : String) (token : String)
    (language : Option String) (s : St) : Except String Unit × St :=
  let s := warnEv s ("Downloading " ++ p)
  let requestPath := trimSlash p
  andThen (api srv requestPath token s) fun res s =>
    (.ok (), { s with data := recordResult s.data language requestPath res })

/-- The `skip` list: paths ignored during the bulk pass. -/
def skip : List String :=
  ["/api/product/issues/product",
   "/api/network/connections/:id",
   "/api/storage/product/volume_for"]

/-- The `extra` list: paths missing from the OpenAPI data, downloaded
unconditionally after the special pass. -/
def extra : List String := ["/api/software/issues/product"]

/-- The `localized` list: paths whose responses depend on the current UI
language, handled only by the localized pass. -/
def localized : List String :=
  ["/api/l10n/keymaps",
   "/api/l10n/locales",
   "/api/l10n/timezones",
   "/api/software/patterns",
   "/api/software/products",
   "/api/storage/devices/result",
   "/api/storage/proposal/actions",
   "/api/users/issues"]

/-- `supported(url, storage, token, data)`: probe
`/api/storage/<storage>/supported`, record the raw response under that key,
and return it; the caller uses it in boolean position, so the model returns
its truthiness. -/
def supported (srv : Server) (storage : String) (token : String) (s : St) :
    Except String Bool × St :=
  let p := "/api/storage/" ++ storage ++ "/supported"
  andThen (api srv p token s) fun v s =>
    (.ok (jTruthy v), { s with data := setKey s.data p v })

/-- The `/api/network/connections` child loop of `specialPaths`: for every
connection entry with a truthy `id`, download
`/api/network/connections/<id>` and record it under that exact path. -/
def connLoop (srv : Server) (token : String) : List JVal → St →
    Except String Unit × St
  | [], s => (.ok (), s)
  | e :: rest, s =>
      if jTruthy (jGet e "id") then
        let p := "/api/network/connections" ++ "/" ++ jToStr (jGet e "id")
        let s := warnEv s ("Downloading " ++ p)
        andThen (api srv p token s) fun res s =>
          connLoop srv token rest { s with data := setKey s.data p res }
      else connLoop srv token rest s

/-- The `volume_for` loop of `specialPaths`: one query-parameterized request
per mount point, recorded under the exact path-plus-query key. -/
def volumeLoop (srv : Server) (token : String) : List JVal → St →
    Except String Unit × St
  | [], s => (.ok (), s)
  | mp :: rest, s =>
      let p := "/api/storage/product/volume_for" ++ "?mount_path=" ++
        encodeURIComponent (jToStr mp)
      let s := warnEv s ("Downloading " ++ p)
      andThen (api srv p token s) fun res s =>
        volumeLoop srv token rest { s with data := setKey s.data p res }

/-- `specialPaths(data, url, token)`: synthesize and download the
parameter-dependent paths from the parent responses already in the snapshot.
`mountPoints.push("")` mutates the array stored inside the recorded
`/api/storage/product/params` response (the local variable aliases it), so
the model updates the stored object and iterates over the extended list;
calling `.push` on a truthy non-array raises a `TypeError`, which rejects. -/
def specialPaths (srv : Server) (token : String) (s : St) :
    Except String Unit × St :=
  let networkConnections := getKey s.data "/api/network/connections"
  andThen
    (if jTruthyOpt networkConnections then
      connLoop srv token (jForInVals (networkConnections.getD .null)) s
    else (.ok (), s)) fun _ s =>
  match getKey s.data "/api/storage/product/params" with
  | some (.obj fields) =>
      (match getKey fields "mountPoints" with
       | some (.arr xs) =>
           let mps := xs ++ [JVal.str ""]
           let s := { s with
             data := setKey s.data "/api/storage/product/params"
               (.obj (setKey fields "mountPoints" (.arr mps))) }
           volumeLoop srv token mps s
       | some v =>
           if jTruthy v then
             (.error "TypeError: mountPoints.push is not a function", s)
           else (.ok (), s)
       | none => (.ok (), s))
  | _ => (.ok (), s)

/-- `extraPaths(data, url, token)`: download every path of the extra list. -/
def extraLoop (srv : Server) (token : String) : List String → St →
    Except String Unit × St
  | [], s => (.ok (), s)
  | p :: rest, s =>
      andThen (apiDownload srv p token none s) fun _ s =>
        extraLoop srv token rest s

/-- The `extraPaths` pass over the constant extra list. -/
def extraPaths (srv : Server) (token : String) (s : St) :
    Except String Unit × St :=
  extraLoop srv token extra s

/-- `switchLanguage(url, token, language)`: PATCH `/api/l10n/config` with the
given `uiLocale`; a status outside 2xx rejects (a missing status code is
falsy and resolves).  On success the server's active locale changes. -/
def switchLanguage (srv : Server) (token : String) (language : String)
    (s : St) : Except String Unit × St :=
  let s := pushEv s (.patchLocale language)
  let st := srv.patchStatus language
  if st ≠ 0 ∧ (st < 200 ∨ 300 ≤ st) then (.error "Changing language failed", s)
  else (.ok (), { s with locale := language })

/-- Split a character list at every `'-'` (the segments of
`language.split("-")`). -/
def splitDash : List Char → List (List Char)
  | [] => [[]]
  | c :: cs =>
      let r := splitDash cs
      if c = '-' then [] :: r
      else
        match r with
        | seg :: rest => (c :: seg) :: rest
        | [] => [[c]]

/-- `language.split("-", 2)` destructured as `[lang, country]`, then joined
as `lang + "_" + country + ".UTF-8"`; a tag without a hyphen leaves `country`
undefined, which stringifies as `"undefined"` (the limit 2 only truncates the
array, and only the first two segments are used). -/
def uiLocaleOf (language : String) : String :=
  let parts := (splitDash language.data).map String.mk
  let lang := parts.headD ""
  let country :=
    match parts with
    | _ :: c :: _ => c
    | _ => "undefined"
  lang ++ "_" ++ country ++ ".UTF-8"

/-- The inner loop of `localizedPaths`: download every path of the localized
list, recording results nested under the current language tag. -/
def localizedLoop (srv : Server) (token : String) (language : String) :
    List String → St → Except String Unit × St
  | [], s => (.ok (), s)
  | p :: rest, s =>
      andThen (apiDownload srv p token (some language) s) fun _ s =>
        localizedLoop srv token language rest s

/-- The per-language loop of `localizedPaths`: switch the UI language, then
download the localized list for that language. -/
def languagesLoop (srv : Server) (token : String) : List String → St →
    Except String Unit × St
  | [], s => (.ok (), s)
  | language :: rest, s =>
      let uiLanguage := uiLocaleOf language
      let s := warnEv s ("Switching UI language to " ++ uiLanguage)
      andThen (switchLanguage srv token uiLanguage s) fun _ s =>
        andThen (localizedLoop srv token language localized s) fun _ s =>
          languagesLoop srv token rest s

/-- `localizedPaths(data, url, token)`: download the `/languages.json`
discovery response (never recorded in the snapshot), then run the
per-language loop over its keys. -/
def localizedPaths (srv : Server) (token : String) (s : St) :
    Except String Unit × St :=
  let s := warnEv s "Downloading /languages.json"
  andThen (api srv "/languages.json" token s) fun languages s =>
    languagesLoop srv token (jForInKeys languages) s

/-- The bulk-pass filter condition of `readOpenAPI`: skip-listed,
localized-listed, or capability-gated templates are not downloaded. -/
def shouldSkipName (zfcp dasd : Bool) (name : String) : Bool :=
  skip.contains name || localized.contains name ||
  (!zfcp && strMatch name "zfcp") || (!dasd && strMatch name "dasd")

/-- The bulk loop over the `paths` entries of one OpenAPI document: every
entry with a truthy `get` operation is either skipped (with a warning) or
downloaded via `apiDownload`. -/
def bulkNames (srv : Server) (token : String) (zfcp dasd : Bool) :
    List (String × JVal) → St → Except String Unit × St
  | [], s => (.ok (), s)
  | (name, item) :: rest, s =>
      if jTruthy (jGet item "get") then
        if shouldSkipName zfcp dasd name then
          bulkNames srv token zfcp dasd rest (warnEv s ("Skipping " ++ name))
        else
          andThen (apiDownload srv name token none s) fun _ s =>
            bulkNames srv token zfcp dasd rest s
      else bulkNames srv token zfcp dasd rest s

/-- The bulk pass over all parsed OpenAPI documents, in file order; each
document contributes its `paths` entries (`apiData.paths || {}`). -/
def bulkDocs (srv : Server) (token : String) (zfcp dasd : Bool) :
    List JVal → St → Except String Unit × St
  | [], s => (.ok (), s)
  | apiData :: rest, s =>
      let paths := if jTruthy (jGet apiData "paths") then jGet apiData "paths"
        else .obj []
      andThen (bulkNames srv token zfcp dasd (jEntries paths) s) fun _ s =>
        bulkDocs srv token zfcp dasd rest s

/-- The path templates the bulk loop selects for download from one
document's `paths` entries: truthy `get` operation and not filtered out. -/
def namesDownloadList (zfcp dasd : Bool) : List (String × JVal) → List String
  | [] => []
  | (name, item) :: rest =>
      if jTruthy (jGet item "get") && !shouldSkipName zfcp dasd name then
        name :: namesDownloadList zfcp dasd rest
      else namesDownloadList zfcp dasd rest

/-- The templates the bulk pass selects for download, across all documents
in order. -/
def bulkDownloadList (zfcp dasd : Bool) : List JVal → List String
  | [] => []
  | apiData :: rest =>
      let paths := if jTruthy (jGet apiData "paths") then jGet apiData "paths"
        else .obj []
      namesDownloadList zfcp dasd (jEntries paths) ++
        bulkDownloadList zfcp dasd rest

/-- `sanityCheck(data)`: warn when no product is selected. -/
def sanityCheck (s : St) : St :=
  let config := getKey s.data "/api/software/config"
  if !jTruthyOpt config || !jTruthy (jGetOpt config "product") then
    warnEv s
      "WARNING: No product is selected, some settings (storage, software) depend on selected product."
  else s

/-- `readOpenAPI(dir, url, password)`: login, probe the two capability
flags, run the bulk pass over the loaded documents, then the special, extra
and localized passes, serialize (the output write is the `writeOutput`
event), and run the sanity check.  `docs` are the parsed OpenAPI JSON files
in glob order (file reading is external I/O). -/
def readOpenAPI (srv : Server) (docs : List JVal) (output : Option String) :
    Except String Unit × St :=
  let s0 : St := { data := [], events := [], locale := srv.initLocale }
  andThen (login srv s0) fun token s =>
  andThen (supported srv "zfcp" token s) fun zfcp s =>
  andThen (supported srv "dasd" token s) fun dasd s =>
  andThen (bulkDocs srv token zfcp dasd docs s) fun _ s =>
  andThen (specialPaths srv token s) fun _ s =>
  andThen (extraPaths srv token s) fun _ s =>
  andThen (localizedPaths srv token s) fun _ s =>
  let s := pushEv s (.writeOutput output)
  (.ok (), sanityCheck s)

/-- The program outcome visible to the operator: exit status, the event
trace, and the final snapshot object. -/
structure RunResult where
  exitCode : Nat
  events : List Event
  data : Data

/-- The top-level anonymous async function: a rejection anywhere is caught,
printed with `warn`, and the process exits with status 1 (with `--debug` the
rethrown error also terminates the process non-zero). -/
def mainRun (srv : Server) (docs : List JVal) (output : Option String) :
    RunResult :=
  match readOpenAPI srv docs output with
  | (.ok _, s) => ⟨0, s.events, s.data⟩
  | (.error m, s) => ⟨1, s.events ++ [.warn m], s.data⟩

/-! ### Properties used by the theorems -/

/-- A trace without any output-write event. -/
def noWrite (es : List Event) : Prop := ∀ f, Event.writeOutput f ∉ es

/-- The trace of the second state extends the trace of the first, and the
extension contains no output-write event. -/
def extendsNoWrite (s s' : St) : Prop :=
  ∃ Δ, s'.events = s.events ++ Δ ∧ noWrite Δ

/-- The snapshot holds no key `/languages.json`, neither at the top level nor
inside any of its object values (the language partitions). -/
def noLangJson (d : Data) : Prop :=
  getKey d "/languages.json" = none ∧
  ∀ k fs, getKey d k = some (.obj fs) → getKey fs "/languages.json" = none

/-! ### Concrete inputs used by witnesses and counterexamples -/

/-- A server whose login POST answers 401. -/
def c5Srv : Server :=
  ⟨401, "token", fun _ _ => .ok .null, fun _ => 204, "en_US.UTF-8"⟩

/-- A server answering every GET with JSON `null`, and a starting snapshot
holding the C6 storage product params. -/
def c6Srv : Server := ⟨200, "t", fun _ _ => .ok .null, fun _ => 204, "C"⟩

/-- Starting snapshot for the C6 witness. -/
def c6St : St :=
  ⟨[("/api/storage/product/params",
      .obj [("mountPoints", .arr [.str "/", .str "/home"])])], [], "C"⟩

/-- A server answering every GET with JSON `null`, and a starting snapshot
holding the C7 network-connections list. -/
def c7Srv : Server := ⟨200, "t", fun _ _ => .ok .null, fun _ => 204, "C"⟩

/-- Starting snapshot for the C7 witness. -/
def c7St : St :=
  ⟨[("/api/network/connections",
      .arr [.obj [("id", .str "eth0")], .obj [("id", .str "")],
        .obj [("id", .str "eth1")]])], [], "C"⟩

/-- A server answering every GET with JSON `null`, and a starting snapshot
holding the C9 storage product params. -/
def c9Srv : Server := ⟨200, "t", fun _ _ => .ok .null, fun _ => 204, "C"⟩

/-- Starting snapshot for the C9 witness. -/
def c9St : St :=
  ⟨[("/api/storage/product/params",
      .obj [("mountPoints", .arr [.str "/"])])], [], "C"⟩

/-- A server whose `/languages.json` discovery response lists one language
and which answers every other GET with JSON `null`. -/
def c10Srv : Server :=
  ⟨200, "t",
   fun _ p =>
     if p = "/languages.json" then .ok (.obj [("en-US", .obj [])])
     else .ok .null,
   fun _ => 204, "en_US.UTF-8"⟩

/-- Empty starting snapshot for the C10 witness. -/
def c10St : St := ⟨[], [], "en_US.UTF-8"⟩

/-- Responses of the C8 witness server: the languages discovery document at
`/languages.json`, and otherwise the current locale echoed back (so the
recorded partitions show which locale served each request). -/
def c8f : String → String → JVal := fun loc p =>
  if p = "/languages.json" then .obj [("en-US", .null), ("de-DE", .null)]
  else .str loc

/-- The C8 witness server. -/
def c8Srv : Server := ⟨200, "t", fun loc p => .ok (c8f loc p), fun _ => 204, "C"⟩

/-- Empty starting snapshot for the C8 witness. -/
def c8St : St := ⟨[], [], "C"⟩

/-- A server answering every request successfully with JSON `null`. -/
def demoSrv : Server := ⟨200, "t", fun _ _ => .ok .null, fun _ => 204, "C"⟩

/-- An OpenAPI document declaring one GET endpoint `/api/test`. -/
def demoDoc : JVal :=
  .obj [("paths", .obj [("/api/test", .obj [("get", .obj [])])])]

/-- An empty starting state. -/
def emptySt : St := ⟨[], [], "C"⟩

/-- A server on which the GET for `/api/a` fails and every other request
succeeds. -/
def c1Srv : Server :=
  ⟨200, "t",
   fun _ p => if p = "/api/a" then .err "Download failed" else .ok .null,
   fun _ => 204, "C"⟩

/-- One OpenAPI document declaring GET endpoints `/api/a` and `/api/b`, in
that order. -/
def c1Docs : List JVal :=
  [.obj [("paths", .obj [("/api/a", .obj [("get", .obj [])]),
    ("/api/b", .obj [("get", .obj [])])])]]

/-! ### Association-list lemmas -/

theorem getKey_setKey (d : Data) (k : String) (v : JVal) (k' : String) :
    getKey (setKey d k v) k' = if k' = k then some v else getKey d k' := by
  induction d with
  | nil =>
      by_cases h : k' = k
      · simp [setKey, getKey, h]
      · simp [setKey, getKey, h, Ne.symm h]
  | cons hd tl ih =>
      obtain ⟨a, b⟩ := hd
      by_cases hak : a = k
      · subst hak
        by_cases h : k' = a
        · simp [setKey, getKey, h]
        · simp [setKey, getKey, h, Ne.symm h]
      · by_cases h : a = k'
        · subst h
          simp [setKey, getKey, hak, Ne.symm hak]
        · simp [setKey, getKey, hak, h, ih]

theorem mem_setKey {d : Data} {k : String} {v : JVal} {x : String × JVal}
    (hx : x ∈ setKey d k v) : x ∈ d ∨ x = (k, v) := by
  induction d with
  | nil => simpa [setKey] using hx
  | cons hd tl ih =>
      obtain ⟨a, b⟩ := hd
      simp only [setKey] at hx
      by_cases hak : a = k
      · rw [if_pos hak] at hx
        rcases List.mem_cons.mp hx with h | h
        · exact Or.inr h
        · exact Or.inl (List.mem_cons_of_mem _ h)
      · rw [if_neg hak] at hx
        rcases List.mem_cons.mp hx with h | h
        · exact Or.inl (h ▸ List.mem_cons_self _ _)
        · rcases ih h with h' | h'
          · exact Or.inl (List.mem_cons_of_mem _ h')
          · exact Or.inr h'

/-! ### Trace helpers -/

theorem noWrite_append {es es' : List Event} (h : noWrite es) (h' : noWrite es') :
    noWrite (es ++ es') := by
  intro f hf
  rcases List.mem_append.mp hf with hh | hh
  · exact h f hh
  · exact h' f hh

theorem getPaths_append (es es' : List Event) :
    getPaths (es ++ es') = getPaths es ++ getPaths es' := by
  simp [getPaths]

theorem mem_get_iff_getPaths {p : String} {es : List Event} :
    Event.get p ∈ es ↔ p ∈ getPaths es := by
  constructor
  · intro h
    exact List.mem_filterMap.mpr ⟨.get p, h, rfl⟩
  · intro h
    rcases List.mem_filterMap.mp h with ⟨e, he, hm⟩
    cases e <;> simp_all

theorem prefix_append_prefix {α : Type} {A p B : List α} (h : p <+: B) :
    A ++ p <+: A ++ B := by
  rcases h with ⟨t, ht⟩
  exact ⟨t, by rw [List.append_assoc, ht]⟩

theorem cons_prefix_cons {α : Type} (a : α) {l₁ l₂ : List α}
    (h : l₁ <+: l₂) : a :: l₁ <+: a :: l₂ := by
  rcases h with ⟨t, ht⟩
  exact ⟨t, by simp [ht]⟩

/-! ### `apiDownload` case lemmas (no language) -/

theorem apiDownload_none_err (srv : Server) (token p : String) (s : St)
    (m : String) (h : srv.get s.locale (trimSlash p) = .err m) :
    apiDownload srv p token none s =
      (.error m, { s with events :=
        s.events ++ [.warn ("Downloading " ++ p), .get (trimSlash p)] }) := by
  simp [apiDownload, recordResult, api, andThen, warnEv, pushEv, h]

theorem apiDownload_none_ok (srv : Server) (token p : String) (s : St)
    (v : JVal) (h : srv.get s.locale (trimSlash p) = .ok v) :
    apiDownload srv p token none s =
      (.ok (), { s with
        data := setKey s.data (trimSlash p) v,
        events := s.events ++ [.warn ("Downloading " ++ p), .get (trimSlash p)] }) := by
  simp [apiDownload, recordResult, api, andThen, warnEv, pushEv, h]

theorem apiDownload_none_nonjson (srv : Server) (token p : String) (s : St)
    (ct : String) (h : srv.get s.locale (trimSlash p) = .okNonJson ct) :
    apiDownload srv p token none s =
      (.ok (), { s with
        data := setKey s.data (trimSlash p) .null,
        events := s.events ++ [.warn ("Downloading " ++ p), .get (trimSlash p),
          .warn ("Ignoring " ++ ct ++ " content")] }) := by
  simp [apiDownload, recordResult, api, andThen, warnEv, pushEv, h]

/-! ### Evaluation lemmas for concrete strings -/

theorem encodeURIComponent_slash : encodeURIComponent "/" = "%2F" := by decide

theorem encodeURIComponent_home : encodeURIComponent "/home" = "%2Fhome" := by
  decide

theorem encodeURIComponent_empty : encodeURIComponent "" = "" := by decide

/-! ### Claim C5 -/

/-- C5: if the login POST returns any HTTP status other than 200 (e.g. 401),
the run terminates with exit status 1, the trace is just the auth POST and
the logged error, the snapshot stays empty, and no output is ever written
(serialization and the file write are never reached). -/
theorem c5_login_failure_aborts (srv : Server) (docs : List JVal)
    (output : Option String) (h : srv.authStatus ≠ 200) :
    (mainRun srv docs output).exitCode = 1 ∧
    (∀ f, Event.writeOutput f ∉ (mainRun srv docs output).events) ∧
    (mainRun srv docs output).events = [.postAuth, .warn "Login failed"] ∧
    (mainRun srv docs output).data = [] := by
  simp [mainRun, readOpenAPI, login, andThen, pushEv, h]

/-- Witness for C5 at a concrete 401 server. -/
theorem c5_witness :
    (mainRun c5Srv [] none).exitCode = 1 ∧
    (mainRun c5Srv [] none).events = [.postAuth, .warn "Login failed"] ∧
    (mainRun c5Srv [] none).data = [] :=
  ⟨(c5_login_failure_aborts c5Srv [] none (by decide)).1,
   (c5_login_failure_aborts c5Srv [] none (by decide)).2.2.1,
   (c5_login_failure_aborts c5Srv [] none (by decide)).2.2.2⟩

/-! ### Claim C6 -/

/-- C6: with storage product params whose `mountPoints` list is
`["/", "/home"]` (and no network-connections parent), the special-paths
resolver issues exactly three `volume_for` requests, with query strings
`mount_path=%2F`, `mount_path=%2Fhome` and `mount_path=` in that order, and
records each response under the exact path-plus-query request key. -/
theorem c6_volume_for_requests (srv : Server) (token : String) (s₀ : St)
    (fields : List (String × JVal)) (r1 r2 r3 : JVal)
    (hconn : getKey s₀.data "/api/network/connections" = none)
    (hparams : getKey s₀.data "/api/storage/product/params" = some (.obj fields))
    (hmp : getKey fields "mountPoints" = some (.arr [.str "/", .str "/home"]))
    (h1 : srv.get s₀.locale "/api/storage/product/volume_for?mount_path=%2F" = .ok r1)
    (h2 : srv.get s₀.locale "/api/storage/product/volume_for?mount_path=%2Fhome" = .ok r2)
    (h3 : srv.get s₀.locale "/api/storage/product/volume_for?mount_path=" = .ok r3) :
    (specialPaths srv token s₀).1 = .ok () ∧
    (specialPaths srv token s₀).2.events = s₀.events ++
      [.warn "Downloading /api/storage/product/volume_for?mount_path=%2F",
       .get "/api/storage/product/volume_for?mount_path=%2F",
       .warn "Downloading /api/storage/product/volume_for?mount_path=%2Fhome",
       .get "/api/storage/product/volume_for?mount_path=%2Fhome",
       .warn "Downloading /api/storage/product/volume_for?mount_path=",
       .get "/api/storage/product/volume_for?mount_path="] ∧
    getKey (specialPaths srv token s₀).2.data
      "/api/storage/product/volume_for?mount_path=%2F" = some r1 ∧
    getKey (specialPaths srv token s₀).2.data
      "/api/storage/product/volume_for?mount_path=%2Fhome" = some r2 ∧
    getKey (specialPaths srv token s₀).2.data
      "/api/storage/product/volume_for?mount_path=" = some r3 := by
  simp [specialPaths, andThen, hconn, jTruthyOpt, hparams, hmp, volumeLoop,
    api, warnEv, pushEv, jToStr, encodeURIComponent_slash,
    encodeURIComponent_home, encodeURIComponent_empty, h1, h2, h3,
    getKey_setKey]

/-- Witness for C6 at a concrete server and snapshot. -/
theorem c6_witness :
    (specialPaths c6Srv "t" c6St).1 = .ok () ∧
    (specialPaths c6Srv "t" c6St).2.events = c6St.events ++
      [.warn "Downloading /api/storage/product/volume_for?mount_path=%2F",
       .get "/api/storage/product/volume_for?mount_path=%2F",
       .warn "Downloading /api/storage/product/volume_for?mount_path=%2Fhome",
       .get "/api/storage/product/volume_for?mount_path=%2Fhome",
       .warn "Downloading /api/storage/product/volume_for?mount_path=",
       .get "/api/storage/product/volume_for?mount_path="] ∧
    getKey (specialPaths c6Srv "t" c6St).2.data
      "/api/storage/product/volume_for?mount_path=%2F" = some .null ∧
    getKey (specialPaths c6Srv "t" c6St).2.data
      "/api/storage/product/volume_for?mount_path=%2Fhome" = some .null ∧
    getKey (specialPaths c6Srv "t" c6St).2.data
      "/api/storage/product/volume_for?mount_path=" = some .null :=
  c6_volume_for_requests c6Srv "t" c6St
    [("mountPoints", .arr [.str "/", .str "/home"])] .null .null .null
    rfl rfl rfl rfl rfl rfl

/-! ### Claim C7 -/

/-- C7: with a network-connections response
`[{id:"eth0"}, {id:""}, {id:"eth1"}]` (and no storage product params), the
special-paths resolver issues exactly two child requests, for
`/api/network/connections/eth0` and `/api/network/connections/eth1`;
the entry with the empty identifier is excluded, and each result is recorded
under the synthesized child path. -/
theorem c7_connection_children (srv : Server) (token : String) (s₀ : St)
    (r1 r2 : JVal)
    (hconn : getKey s₀.data "/api/network/connections" =
      some (.arr [.obj [("id", .str "eth0")], .obj [("id", .str "")],
        .obj [("id", .str "eth1")]]))
    (hparams : getKey s₀.data "/api/storage/product/params" = none)
    (h1 : srv.get s₀.locale "/api/network/connections/eth0" = .ok r1)
    (h2 : srv.get s₀.locale "/api/network/connections/eth1" = .ok r2) :
    (specialPaths srv token s₀).1 = .ok () ∧
    (specialPaths srv token s₀).2.events = s₀.events ++
      [.warn "Downloading /api/network/connections/eth0",
       .get "/api/network/connections/eth0",
       .warn "Downloading /api/network/connections/eth1",
       .get "/api/network/connections/eth1"] ∧
    getKey (specialPaths srv token s₀).2.data
      "/api/network/connections/eth0" = some r1 ∧
    getKey (specialPaths srv token s₀).2.data
      "/api/network/connections/eth1" = some r2 := by
  have hvals : jForInVals (JVal.arr [.obj [("id", .str "eth0")],
      .obj [("id", .str "")], .obj [("id", .str "eth1")]]) =
      [.obj [("id", .str "eth0")], .obj [("id", .str "")],
       .obj [("id", .str "eth1")]] := rfl
  simp [specialPaths, andThen, hconn, jTruthyOpt, hvals, connLoop, jGet,
    getKey, jTruthy, jToStr, api, warnEv, pushEv, h1, h2, getKey_setKey,
    hparams]

/-- Witness for C7 at a concrete server and snapshot. -/
theorem c7_witness :
    (specialPaths c7Srv "t" c7St).1 = .ok () ∧
    (specialPaths c7Srv "t" c7St).2.events = c7St.events ++
      [.warn "Downloading /api/network/connections/eth0",
       .get "/api/network/connections/eth0",
       .warn "Downloading /api/network/connections/eth1",
       .get "/api/network/connections/eth1"] ∧
    getKey (specialPaths c7Srv "t" c7St).2.data
      "/api/network/connections/eth0" = some .null ∧
    getKey (specialPaths c7Srv "t" c7St).2.data
      "/api/network/connections/eth1" = some .null :=
  c7_connection_children c7Srv "t" c7St .null .null rfl rfl rfl rfl

/-! ### Claim C9 -/

/-- The `volume_for` request keys all extend a prefix longer than the
`params` key, so the loop never rewrites the stored product params. -/
theorem volumeKey_ne_params (suffix : String) :
    ¬("/api/storage/product/params" =
      "/api/storage/product/volume_for?mount_path=" ++ suffix) := by
  intro h
  have hd := congrArg String.data h
  rw [String.data_append] at hd
  have hl := congrArg List.length hd
  simp at hl

/-- The `volume_for` loop leaves the stored `/api/storage/product/params`
entry unchanged (whether it completes or rejects mid-way). -/
theorem volumeLoop_params_getKey (srv : Server) (token : String)
    (mps : List JVal) : ∀ s : St,
    getKey (volumeLoop srv token mps s).2.data "/api/storage/product/params" =
      getKey s.data "/api/storage/product/params" := by
  induction mps with
  | nil => intro s; simp [volumeLoop]
  | cons mp rest ih =>
      intro s
      rcases hres : srv.get s.locale
          ("/api/storage/product/volume_for?mount_path=" ++
            encodeURIComponent (jToStr mp)) with v | ct | m
      · simp [volumeLoop, api, andThen, warnEv, pushEv, hres, ih,
          getKey_setKey, volumeKey_ne_params]
      · simp [volumeLoop, api, andThen, warnEv, pushEv, hres, ih,
          getKey_setKey, volumeKey_ne_params]
      · simp [volumeLoop, api, andThen, warnEv, pushEv, hres]

/-- C9: the special-paths resolver mutates the parent response recorded in
the snapshot: with storage product params holding a `mountPoints` list, it
appends the empty string to that stored array before iterating, so the
snapshot's `/api/storage/product/params` value afterwards carries one more
`mountPoints` entry (the empty string) than the downloaded response body that
was stored before the pass. -/
theorem c9_mountPoints_mutated_in_snapshot (srv : Server) (token : String)
    (s₀ : St) (fields : List (String × JVal)) (mps : List JVal)
    (hconn : getKey s₀.data "/api/network/connections" = none)
    (hparams : getKey s₀.data "/api/storage/product/params" =
      some (.obj fields))
    (hmp : getKey fields "mountPoints" = some (.arr mps)) :
    getKey (specialPaths srv token s₀).2.data "/api/storage/product/params" =
      some (.obj (setKey fields "mountPoints" (.arr (mps ++ [.str ""])))) ∧
    jGet (.obj (setKey fields "mountPoints" (.arr (mps ++ [.str ""]))))
      "mountPoints" = .arr (mps ++ [.str ""]) ∧
    (mps ++ [JVal.str ""]).length = mps.length + 1 := by
  refine ⟨?_, ?_, by simp⟩
  · simp [specialPaths, andThen, hconn, jTruthyOpt, hparams, hmp,
      volumeLoop_params_getKey, getKey_setKey]
  · simp [jGet, getKey_setKey]

/-- Witness for C9 at a concrete server and snapshot. -/
theorem c9_witness :
    getKey (specialPaths c9Srv "t" c9St).2.data "/api/storage/product/params" =
      some (.obj (setKey [("mountPoints", .arr [.str "/"])] "mountPoints"
        (.arr ([.str "/"] ++ [.str ""])))) ∧
    jGet (.obj (setKey [("mountPoints", .arr [.str "/"])] "mountPoints"
      (.arr ([.str "/"] ++ [.str ""])))) "mountPoints" =
      .arr ([.str "/"] ++ [.str ""]) ∧
    ([JVal.str "/"] ++ [JVal.str ""]).length = [JVal.str "/"].length + 1 :=
  c9_mountPoints_mutated_in_snapshot c9Srv "t" c9St
    [("mountPoints", .arr [.str "/"])] [.str "/"] rfl rfl rfl

/-! ### Claim C10 -/

/-- Writing a language partition whose fields avoid `/languages.json`, at a
tag other than `/languages.json`, preserves `noLangJson`. -/
theorem noLangJson_setKey_obj {d : Data} {lang : String}
    {fs : List (String × JVal)} (hd : noLangJson d)
    (hlang : lang ≠ "/languages.json")
    (hfs : getKey fs "/languages.json" = none) :
    noLangJson (setKey d lang (.obj fs)) := by
  constructor
  · rw [getKey_setKey, if_neg (Ne.symm hlang)]
    exact hd.1
  · intro k fs' hk
    rw [getKey_setKey] at hk
    by_cases h : k = lang
    · rw [if_pos h] at hk
      cases hk
      exact hfs
    · rw [if_neg h] at hk
      exact hd.2 k fs' hk

/-- The nested recording step preserves `noLangJson` as long as the language
tag and the request path differ from `/languages.json`. -/
theorem recordResult_lang_noLangJson {d : Data} {lang reqPath : String}
    (res : JVal) (hlang : lang ≠ "/languages.json")
    (hp : reqPath ≠ "/languages.json") (h : noLangJson d) :
    noLangJson (recordResult d (some lang) reqPath res) := by
  have main : ∀ d' : Data, noLangJson d' →
      noLangJson (match getKey d' lang with
        | some (.obj fs) => setKey d' lang (.obj (setKey fs reqPath res))
        | _ => d') := by
    intro d' hd'
    rcases hg : getKey d' lang with _ | w
    · simpa [hg] using hd'
    · cases w with
      | obj fs =>
          simp only [hg]
          exact noLangJson_setKey_obj hd' hlang
            (by rw [getKey_setKey, if_neg (Ne.symm hp)]; exact hd'.2 lang fs hg)
      | null => simpa [hg] using hd'
      | bool b => simpa [hg] using hd'
      | num n => simpa [hg] using hd'
      | str s2 => simpa [hg] using hd'
      | arr xs => simpa [hg] using hd'
  have hfresh : noLangJson (setKey d lang (.obj [])) :=
    noLangJson_setKey_obj h hlang (by simp [getKey])
  simp only [recordResult]
  by_cases ht : jTruthyOpt (getKey d lang) = true
  · rw [if_pos ht]
    exact main d h
  · rw [if_neg ht]
    exact main _ hfresh

/-- A language-qualified `apiDownload` preserves `noLangJson` as long as the
language tag and the trimmed request path differ from `/languages.json`. -/
theorem apiDownload_lang_noLangJson (srv : Server) (p token lang : String)
    (s : St) (hlang : lang ≠ "/languages.json")
    (hp : trimSlash p ≠ "/languages.json") (h : noLangJson s.data) :
    noLangJson (apiDownload srv p token (some lang) s).2.data := by
  rcases hres : srv.get s.locale (trimSlash p) with v | ct | m
  · simp only [apiDownload, api, andThen, warnEv, pushEv, hres]
    exact recordResult_lang_noLangJson v hlang hp h
  · simp only [apiDownload, api, andThen, warnEv, pushEv, hres]
    exact recordResult_lang_noLangJson .null hlang hp h
  · simpa [apiDownload, api, andThen, warnEv, pushEv, hres] using h

/-- The localized-list loop preserves `noLangJson`. -/
theorem localizedLoop_noLangJson (srv : Server) (token lang : String)
    (hlang : lang ≠ "/languages.json") (ps : List String)
    (hps : ∀ p ∈ ps, trimSlash p ≠ "/languages.json") : ∀ s : St,
    noLangJson s.data →
    noLangJson (localizedLoop srv token lang ps s).2.data := by
  induction ps with
  | nil => intro s h; simpa [localizedLoop] using h
  | cons p rest ih =>
      intro s h
      have hstep := apiDownload_lang_noLangJson srv p token lang s hlang
        (hps p (List.mem_cons_self p rest)) h
      rcases hd : apiDownload srv p token (some lang) s with ⟨res, s'⟩
      rw [hd] at hstep
      cases res with
      | error m => simpa [localizedLoop, andThen, hd] using hstep
      | ok u =>
          have := ih (fun q hq => hps q (List.mem_cons_of_mem p hq)) s' hstep
          simpa [localizedLoop, andThen, hd] using this

/-- The per-language loop preserves `noLangJson` as long as no discovered
language tag is literally `/languages.json`. -/
theorem languagesLoop_noLangJson (srv : Server) (token : String)
    (tags : List String) (htags : ∀ t ∈ tags, t ≠ "/languages.json") :
    ∀ s : St, noLangJson s.data →
    noLangJson (languagesLoop srv token tags s).2.data := by
  induction tags with
  | nil => intro s h; simpa [languagesLoop] using h
  | cons t rest ih =>
      intro s h
      have hswitch :
          ∀ s' : St, (switchLanguage srv token (uiLocaleOf t) s').2.data
            = s'.data := by
        intro s'
        by_cases hc : srv.patchStatus (uiLocaleOf t) ≠ 0 ∧
            (srv.patchStatus (uiLocaleOf t) < 200 ∨
             300 ≤ srv.patchStatus (uiLocaleOf t))
        · simp [switchLanguage, pushEv, hc]
        · simp [switchLanguage, pushEv, hc]
      rcases hsw : switchLanguage srv token (uiLocaleOf t) (warnEv s
          ("Switching UI language to " ++ uiLocaleOf t)) with ⟨res, s'⟩
      have hs' : noLangJson s'.data := by
        have h2 := hswitch (warnEv s ("Switching UI language to " ++ uiLocaleOf t))
        rw [hsw] at h2
        have hdat : s'.data = s.data := by simpa [warnEv, pushEv] using h2
        rw [hdat]
        exact h
      cases res with
      | error m => simpa [languagesLoop, andThen, hsw] using hs'
      | ok u =>
          have hloop := localizedLoop_noLangJson srv token t
            (htags t (List.mem_cons_self t rest)) localized
            (by decide) s' hs'
          rcases hll : localizedLoop srv token t localized s' with ⟨res2, s''⟩
          rw [hll] at hloop
          cases res2 with
          | error m => simpa [languagesLoop, andThen, hsw, hll] using hloop
          | ok u2 =>
              have := ih (fun q hq => htags q (List.mem_cons_of_mem t hq)) s''
                hloop
              simpa [languagesLoop, andThen, hsw, hll] using this

/-! ### Trace-extension lemmas: every pass appends events and never writes
the output -/

theorem noWrite_nil : noWrite [] := by
  intro f hf
  simp at hf

theorem extendsNoWrite_refl (s : St) : extendsNoWrite s s :=
  ⟨[], by simp, noWrite_nil⟩

theorem extendsNoWrite_trans {s₁ s₂ s₃ : St} (h : extendsNoWrite s₁ s₂)
    (h' : extendsNoWrite s₂ s₃) : extendsNoWrite s₁ s₃ := by
  obtain ⟨d1, hd1, hw1⟩ := h
  obtain ⟨d2, hd2, hw2⟩ := h'
  exact ⟨d1 ++ d2, by rw [hd2, hd1, List.append_assoc], noWrite_append hw1 hw2⟩

theorem extendsNoWrite_data (s : St) (d : Data) :
    extendsNoWrite s { s with data := d } :=
  ⟨[], by simp, noWrite_nil⟩

theorem extendsNoWrite_warn (s : St) (msg : String) :
    extendsNoWrite s (warnEv s msg) :=
  ⟨[.warn msg], rfl, by intro f hf; simp at hf⟩

theorem andThen_extends {α β : Type} {s : St} (r : Except String α × St)
    (f : α → St → Except String β × St) (hr : extendsNoWrite s r.2)
    (hf : ∀ a s', extendsNoWrite s' (f a s').2) :
    extendsNoWrite s (andThen r f).2 := by
  rcases r with ⟨res, s1⟩
  cases res with
  | error m => exact hr
  | ok a => exact extendsNoWrite_trans hr (hf a s1)

theorem login_extends (srv : Server) (s : St) :
    extendsNoWrite s (login srv s).2 := by
  refine ⟨[.postAuth], ?_, by intro f hf; simp at hf⟩
  by_cases h : srv.authStatus = 200 <;> simp [login, pushEv, h]

theorem api_extends (srv : Server) (p token : String) (s : St) :
    extendsNoWrite s (api srv p token s).2 := by
  rcases h : srv.get s.locale p with v | ct | m
  · exact ⟨[.get p], by simp [api, pushEv, h], by intro f hf; simp at hf⟩
  · exact ⟨[.get p, .warn ("Ignoring " ++ ct ++ " content")],
      by simp [api, pushEv, warnEv, h], by intro f hf; simp at hf⟩
  · exact ⟨[.get p], by simp [api, pushEv, h], by intro f hf; simp at hf⟩

theorem supported_extends (srv : Server) (storage token : String) (s : St) :
    extendsNoWrite s (supported srv storage token s).2 := by
  apply andThen_extends _ _ (api_extends srv _ token s)
  intro v s'
  exact extendsNoWrite_data s' _

theorem apiDownload_extends (srv : Server) (p token : String)
    (lang : Option String) (s : St) :
    extendsNoWrite s (apiDownload srv p token lang s).2 := by
  simp only [apiDownload]
  apply andThen_extends _ _
    (extendsNoWrite_trans (extendsNoWrite_warn s _) (api_extends srv _ token _))
  intro res s'
  exact extendsNoWrite_data s' _

theorem switchLanguage_extends (srv : Server) (token language : String)
    (s : St) : extendsNoWrite s (switchLanguage srv token language s).2 := by
  refine ⟨[.patchLocale language], ?_, by intro f hf; simp at hf⟩
  by_cases hc : srv.patchStatus language ≠ 0 ∧
      (srv.patchStatus language < 200 ∨ 300 ≤ srv.patchStatus language) <;>
    simp [switchLanguage, pushEv, hc]

theorem connLoop_extends (srv : Server) (token : String) (es : List JVal) :
    ∀ s : St, extendsNoWrite s (connLoop srv token es s).2 := by
  induction es with
  | nil => intro s; exact extendsNoWrite_refl s
  | cons e rest ih =>
      intro s
      by_cases hid : jTruthy (jGet e "id") = true
      · simp only [connLoop, hid, if_pos]
        apply andThen_extends _ _ (extendsNoWrite_trans
          (extendsNoWrite_warn s _) (api_extends srv _ token _))
        intro res s'
        exact extendsNoWrite_trans (extendsNoWrite_data s' _) (ih _)
      · simp only [connLoop, hid, if_neg, Bool.false_eq_true, ite_false]
        exact ih s

theorem volumeLoop_extends (srv : Server) (token : String) (mps : List JVal) :
    ∀ s : St, extendsNoWrite s (volumeLoop srv token mps s).2 := by
  induction mps with
  | nil => intro s; exact extendsNoWrite_refl s
  | cons mp rest ih =>
      intro s
      simp only [volumeLoop]
      apply andThen_extends _ _ (extendsNoWrite_trans
        (extendsNoWrite_warn s _) (api_extends srv _ token _))
      intro res s'
      exact extendsNoWrite_trans (extendsNoWrite_data s' _) (ih _)

theorem specialPaths_extends (srv : Server) (token : String) (s : St) :
    extendsNoWrite s (specialPaths srv token s).2 := by
  simp only [specialPaths]
  apply andThen_extends
  · by_cases hc : jTruthyOpt (getKey s.data "/api/network/connections") = true
    · simp only [hc, if_pos]
      exact connLoop_extends srv token _ s
    · simp only [hc, Bool.false_eq_true, if_neg, ite_false]
      exact extendsNoWrite_refl s
  · intro u s'
    rcases hp : getKey s'.data "/api/storage/product/params" with _ | w
    · simp only [hp]
      exact extendsNoWrite_refl s'
    · cases w <;> simp only [hp]
      case obj fields =>
        rcases hm : getKey fields "mountPoints" with _ | w2
        · simp only [hm]
          exact extendsNoWrite_refl s'
        · cases w2 <;> simp only [hm]
          case arr xs =>
            exact extendsNoWrite_trans (extendsNoWrite_data s' _)
              (volumeLoop_extends srv token _ _)
          all_goals
            first
            | (split
               · exact extendsNoWrite_refl s'
               · exact extendsNoWrite_refl s')
            | exact extendsNoWrite_refl s'
      all_goals exact extendsNoWrite_refl s'

theorem extraLoop_extends (srv : Server) (token : String) (ps : List String) :
    ∀ s : St, extendsNoWrite s (extraLoop srv token ps s).2 := by
  induction ps with
  | nil => intro s; exact extendsNoWrite_refl s
  | cons p rest ih =>
      intro s
      simp only [extraLoop]
      apply andThen_extends _ _ (apiDownload_extends srv p token none s)
      intro u s'
      exact ih s'

theorem extraPaths_extends (srv : Server) (token : String) (s : St) :
    extendsNoWrite s (extraPaths srv token s).2 :=
  extraLoop_extends srv token extra s

theorem localizedLoop_extends (srv : Server) (token lang : String)
    (ps : List String) : ∀ s : St,
    extendsNoWrite s (localizedLoop srv token lang ps s).2 := by
  induction ps with
  | nil => intro s; exact extendsNoWrite_refl s
  | cons p rest ih =>
      intro s
      simp only [localizedLoop]
      apply andThen_extends _ _ (apiDownload_extends srv p token (some lang) s)
      intro u s'
      exact ih s'

theorem languagesLoop_extends (srv : Server) (token : String)
    (tags : List String) : ∀ s : St,
    extendsNoWrite s (languagesLoop srv token tags s).2 := by
  induction tags with
  | nil => intro s; exact extendsNoWrite_refl s
  | cons t rest ih =>
      intro s
      simp only [languagesLoop]
      apply andThen_extends _ _ (extendsNoWrite_trans
        (extendsNoWrite_warn s _) (switchLanguage_extends srv token _ _))
      intro u s'
      apply andThen_extends _ _ (localizedLoop_extends srv token t localized s')
      intro u2 s''
      exact ih s''

theorem localizedPaths_extends (srv : Server) (token : String) (s : St) :
    extendsNoWrite s (localizedPaths srv token s).2 := by
  simp only [localizedPaths]
  apply andThen_extends _ _ (extendsNoWrite_trans
    (extendsNoWrite_warn s _) (api_extends srv _ token _))
  intro languages s'
  exact languagesLoop_extends srv token _ s'

theorem bulkNames_extends (srv : Server) (token : String) (z d : Bool)
    (entries : List (String × JVal)) : ∀ s : St,
    extendsNoWrite s (bulkNames srv token z d entries s).2 := by
  induction entries with
  | nil => intro s; exact extendsNoWrite_refl s
  | cons nv rest ih =>
      intro s
      obtain ⟨name, item⟩ := nv
      by_cases hg : jTruthy (jGet item "get") = true
      · by_cases hs : shouldSkipName z d name = true
        · simp only [bulkNames, hg, hs, if_pos]
          exact extendsNoWrite_trans (extendsNoWrite_warn s _) (ih _)
        · simp only [bulkNames, hg, hs, if_pos, Bool.false_eq_true, ite_false]
          apply andThen_extends _ _ (apiDownload_extends srv name token none s)
          intro u s'
          exact ih s'
      · simp only [bulkNames, hg, Bool.false_eq_true, ite_false]
        exact ih s

theorem bulkDocs_extends (srv : Server) (token : String) (z d : Bool)
    (docs : List JVal) : ∀ s : St,
    extendsNoWrite s (bulkDocs srv token z d docs s).2 := by
  induction docs with
  | nil => intro s; exact extendsNoWrite_refl s
  | cons doc rest ih =>
      intro s
      simp only [bulkDocs]
      apply andThen_extends _ _ (bulkNames_extends srv token z d _ s)
      intro u s'
      exact ih s'

/-- C10: the localized pass downloads `/languages.json` (the GET event is in
the trace) but never records it: if the snapshot held no `/languages.json`
key at any level before the pass, it holds none afterwards — only language-tag
partitions are added. -/
theorem c10_languages_json_not_recorded (srv : Server) (token : String)
    (s₀ : St) (h₀ : noLangJson s₀.data)
    (htags : "/languages.json" ∉
      jForInKeys (responseVal (srv.get s₀.locale "/languages.json"))) :
    noLangJson (localizedPaths srv token s₀).2.data ∧
    Event.get "/languages.json" ∈ (localizedPaths srv token s₀).2.events := by
  rcases hres : srv.get s₀.locale "/languages.json" with v | ct | m
  · have hkeys : ∀ t ∈ jForInKeys v, t ≠ "/languages.json" := by
      intro t ht heq
      rw [hres] at htags
      exact htags (heq ▸ ht)
    constructor
    · have := languagesLoop_noLangJson srv token (jForInKeys v) hkeys
        (pushEv (warnEv s₀ "Downloading /languages.json")
          (.get "/languages.json")) (by simpa [pushEv, warnEv] using h₀)
      simpa [localizedPaths, api, andThen, warnEv, pushEv, hres] using this
    · obtain ⟨Δ, hΔ, -⟩ := languagesLoop_extends srv token (jForInKeys v)
        (pushEv (warnEv s₀ "Downloading /languages.json")
          (.get "/languages.json"))
      have hmem : Event.get "/languages.json" ∈
          (languagesLoop srv token (jForInKeys v)
            (pushEv (warnEv s₀ "Downloading /languages.json")
              (.get "/languages.json"))).2.events := by
        rw [hΔ]
        apply List.mem_append_left
        simp [pushEv, warnEv]
      simpa [localizedPaths, api, andThen, warnEv, pushEv, hres] using hmem
  · constructor
    · have hnull : jForInKeys JVal.null = [] := rfl
      simpa [localizedPaths, api, andThen, warnEv, pushEv, hres, hnull,
        languagesLoop] using h₀
    · simp [localizedPaths, api, andThen, warnEv, pushEv, hres, jForInKeys,
        jEntries, languagesLoop]
  · constructor
    · simpa [localizedPaths, api, andThen, warnEv, pushEv, hres] using h₀
    · simp [localizedPaths, api, andThen, warnEv, pushEv, hres]

/-! ### Claim C8 -/

/-- Overwriting the same key twice keeps only the second write. -/
theorem setKey_setKey (d : Data) (k : String) (v w : JVal) :
    setKey (setKey d k v) k w = setKey d k w := by
  induction d with
  | nil => simp [setKey]
  | cons hd tl ih =>
      obtain ⟨a, b⟩ := hd
      by_cases hak : a = k
      · simp [setKey, hak]
      · simp [setKey, hak, ih]

/-- One language-qualified `apiDownload` whose GET succeeds with a JSON
body. -/
theorem apiDownload_some_ok (srv : Server) (token p lang : String) (s : St)
    (v : JVal) (h : srv.get s.locale (trimSlash p) = .ok v) :
    apiDownload srv p token (some lang) s =
      (.ok (), { s with
        data := recordResult s.data (some lang) (trimSlash p) v,
        events := s.events ++ [.warn ("Downloading " ++ p), .get (trimSlash p)] }) := by
  simp [apiDownload, api, andThen, warnEv, pushEv, h]

/-- Nested recording into a language partition that does not exist yet
creates it with the single downloaded entry. -/
theorem recordResult_fresh (d : Data) (lang reqPath : String) (res : JVal)
    (h : getKey d lang = none) :
    recordResult d (some lang) reqPath res =
      setKey d lang (.obj [(reqPath, res)]) := by
  simp [recordResult, jTruthyOpt, h, getKey_setKey, setKey, setKey_setKey]

/-- Nested recording into an existing language partition writes through the
partition object. -/
theorem recordResult_grow (d : Data) (lang reqPath : String) (res : JVal)
    (fs : List (String × JVal)) (h : getKey d lang = some (.obj fs)) :
    recordResult d (some lang) reqPath res =
      setKey d lang (.obj (setKey fs reqPath res)) := by
  simp [recordResult, jTruthyOpt, h, jTruthy]

set_option maxHeartbeats 3200000 in
/-- C8: with a languages discovery response listing `en-US` and `de-DE` and
every request succeeding, the localization pass issues exactly one
locale-switch PATCH per language, each before any localized download of that
language (the full trace is given in order), and every localized result is
recorded nested two levels deep as `snapshot[tag][trimmedPath]` — holding the
response served under that language's locale — while the top-level mapping
gains no other key (never flattened). -/
theorem c8_patch_per_language_and_nesting (srv : Server) (token : String)
    (s₀ : St) (m1 m2 : JVal) (f : String → String → JVal)
    (hget : ∀ loc p, srv.get loc p = .ok (f loc p))
    (hL : f s₀.locale "/languages.json" =
      .obj [("en-US", m1), ("de-DE", m2)])
    (hpatch : ∀ l, srv.patchStatus l = 204)
    (h1 : getKey s₀.data "en-US" = none)
    (h2 : getKey s₀.data "de-DE" = none) :
    (localizedPaths srv token s₀).2.events = s₀.events ++
      ([.warn "Downloading /languages.json", .get "/languages.json",
        .warn "Switching UI language to en_US.UTF-8",
        .patchLocale "en_US.UTF-8",
        .warn "Downloading /api/l10n/keymaps", .get "/api/l10n/keymaps",
        .warn "Downloading /api/l10n/locales", .get "/api/l10n/locales",
        .warn "Downloading /api/l10n/timezones", .get "/api/l10n/timezones",
        .warn "Downloading /api/software/patterns", .get "/api/software/patterns",
        .warn "Downloading /api/software/products", .get "/api/software/products",
        .warn "Downloading /api/storage/devices/result", .get "/api/storage/devices/result",
        .warn "Downloading /api/storage/proposal/actions", .get "/api/storage/proposal/actions",
        .warn "Downloading /api/users/issues", .get "/api/users/issues",
        .warn "Switching UI language to de_DE.UTF-8",
        .patchLocale "de_DE.UTF-8",
        .warn "Downloading /api/l10n/keymaps", .get "/api/l10n/keymaps",
        .warn "Downloading /api/l10n/locales", .get "/api/l10n/locales",
        .warn "Downloading /api/l10n/timezones", .get "/api/l10n/timezones",
        .warn "Downloading /api/software/patterns", .get "/api/software/patterns",
        .warn "Downloading /api/software/products", .get "/api/software/products",
        .warn "Downloading /api/storage/devices/result", .get "/api/storage/devices/result",
        .warn "Downloading /api/storage/proposal/actions", .get "/api/storage/proposal/actions",
        .warn "Downloading /api/users/issues", .get "/api/users/issues"]) ∧
    getKey (localizedPaths srv token s₀).2.data "en-US" = some (.obj
      [("/api/l10n/keymaps", f "en_US.UTF-8" "/api/l10n/keymaps"),
       ("/api/l10n/locales", f "en_US.UTF-8" "/api/l10n/locales"),
       ("/api/l10n/timezones", f "en_US.UTF-8" "/api/l10n/timezones"),
       ("/api/software/patterns", f "en_US.UTF-8" "/api/software/patterns"),
       ("/api/software/products", f "en_US.UTF-8" "/api/software/products"),
       ("/api/storage/devices/result", f "en_US.UTF-8" "/api/storage/devices/result"),
       ("/api/storage/proposal/actions", f "en_US.UTF-8" "/api/storage/proposal/actions"),
       ("/api/users/issues", f "en_US.UTF-8" "/api/users/issues")]) ∧
    getKey (localizedPaths srv token s₀).2.data "de-DE" = some (.obj
      [("/api/l10n/keymaps", f "de_DE.UTF-8" "/api/l10n/keymaps"),
       ("/api/l10n/locales", f "de_DE.UTF-8" "/api/l10n/locales"),
       ("/api/l10n/timezones", f "de_DE.UTF-8" "/api/l10n/timezones"),
       ("/api/software/patterns", f "de_DE.UTF-8" "/api/software/patterns"),
       ("/api/software/products", f "de_DE.UTF-8" "/api/software/products"),
       ("/api/storage/devices/result", f "de_DE.UTF-8" "/api/storage/devices/result"),
       ("/api/storage/proposal/actions", f "de_DE.UTF-8" "/api/storage/proposal/actions"),
       ("/api/users/issues", f "de_DE.UTF-8" "/api/users/issues")]) ∧
    (∀ k, k ≠ "en-US" → k ≠ "de-DE" →
      getKey (localizedPaths srv token s₀).2.data k = getKey s₀.data k) := by
  have u1 : uiLocaleOf "en-US" = "en_US.UTF-8" := by decide
  have u2 : uiLocaleOf "de-DE" = "de_DE.UTF-8" := by decide
  have t1 : trimSlash "/api/l10n/keymaps" = "/api/l10n/keymaps" := by decide
  have t2 : trimSlash "/api/l10n/locales" = "/api/l10n/locales" := by decide
  have t3 : trimSlash "/api/l10n/timezones" = "/api/l10n/timezones" := by decide
  have t4 : trimSlash "/api/software/patterns" = "/api/software/patterns" := by
    decide
  have t5 : trimSlash "/api/software/products" = "/api/software/products" := by
    decide
  have t6 : trimSlash "/api/storage/devices/result" =
      "/api/storage/devices/result" := by decide
  have t7 : trimSlash "/api/storage/proposal/actions" =
      "/api/storage/proposal/actions" := by decide
  have t8 : trimSlash "/api/users/issues" = "/api/users/issues" := by decide
  simp [localizedPaths, languagesLoop, localizedLoop, localized, api, andThen,
    warnEv, pushEv, switchLanguage, jForInKeys, jEntries, hget, hL, hpatch,
    u1, u2, t1, t2, t3, t4, t5, t6, t7, t8, h1, h2, apiDownload_some_ok,
    recordResult_fresh, recordResult_grow, getKey_setKey, setKey_setKey,
    setKey]
  intro k hk1 hk2
  simp [getKey_setKey, hk1, hk2]

/-- Witness for C8 at a concrete server and empty snapshot: the `en-US`
partition holds the responses served under the `en_US.UTF-8` locale. -/
theorem c8_witness :
    getKey (localizedPaths c8Srv "t" c8St).2.data "en-US" = some (.obj
      [("/api/l10n/keymaps", c8f "en_US.UTF-8" "/api/l10n/keymaps"),
       ("/api/l10n/locales", c8f "en_US.UTF-8" "/api/l10n/locales"),
       ("/api/l10n/timezones", c8f "en_US.UTF-8" "/api/l10n/timezones"),
       ("/api/software/patterns", c8f "en_US.UTF-8" "/api/software/patterns"),
       ("/api/software/products", c8f "en_US.UTF-8" "/api/software/products"),
       ("/api/storage/devices/result", c8f "en_US.UTF-8" "/api/storage/devices/result"),
       ("/api/storage/proposal/actions", c8f "en_US.UTF-8" "/api/storage/proposal/actions"),
       ("/api/users/issues", c8f "en_US.UTF-8" "/api/users/issues")]) :=
  (c8_patch_per_language_and_nesting c8Srv "t" c8St .null .null c8f
    (fun loc p => rfl) rfl (fun l => rfl) rfl rfl).2.1

/-- Witness for C10 at a concrete server and empty snapshot. -/
theorem c10_witness :
    getKey (localizedPaths c10Srv "t" c10St).2.data "/languages.json" = none ∧
    Event.get "/languages.json" ∈ (localizedPaths c10Srv "t" c10St).2.events :=
  ⟨(c10_languages_json_not_recorded c10Srv "t" c10St
      ⟨rfl, by intro k fs hk; simp [getKey] at hk⟩ (by decide)).1.1,
   (c10_languages_json_not_recorded c10Srv "t" c10St
      ⟨rfl, by intro k fs hk; simp [getKey] at hk⟩ (by decide)).2⟩

/-! ### Bulk-pass characterization -/

/-- The GET requests the bulk loop issues over one entry list are (a prefix
of, and on success exactly) the trimmed selected templates, appended to the
incoming trace. -/
theorem bulkNames_shape (srv : Server) (token : String) (z d : Bool)
    (entries : List (String × JVal)) : ∀ s : St,
    ∃ Δ, (bulkNames srv token z d entries s).2.events = s.events ++ Δ ∧
      getPaths Δ <+: (namesDownloadList z d entries).map trimSlash ∧
      ((bulkNames srv token z d entries s).1 = .ok () →
        getPaths Δ = (namesDownloadList z d entries).map trimSlash) := by
  induction entries with
  | nil =>
      intro s
      exact ⟨[], by simp [bulkNames], by simp [namesDownloadList, getPaths],
        fun _ => by simp [namesDownloadList, getPaths]⟩
  | cons nv rest ih =>
      intro s
      obtain ⟨name, item⟩ := nv
      by_cases hg : jTruthy (jGet item "get") = true
      · by_cases hs : shouldSkipName z d name = true
        · obtain ⟨Δ, hΔ, hpre, hok⟩ := ih (warnEv s ("Skipping " ++ name))
          refine ⟨.warn ("Skipping " ++ name) :: Δ, ?_, ?_, ?_⟩
          · simp only [bulkNames, hg, hs, if_pos]
            rw [hΔ]
            simp [warnEv, pushEv]
          · simpa [getPaths, namesDownloadList, hg, hs] using hpre
          · intro hfst
            simp only [bulkNames, hg, hs, if_pos] at hfst
            simpa [getPaths, namesDownloadList, hg, hs] using hok hfst
        · rcases hres : srv.get s.locale (trimSlash name) with v | ct | m
          · obtain ⟨Δ, hΔ, hpre, hok⟩ := ih { s with
              data := setKey s.data (trimSlash name) v,
              events := s.events ++ [.warn ("Downloading " ++ name),
                .get (trimSlash name)] }
            have h1 : namesDownloadList z d ((name, item) :: rest) =
                name :: namesDownloadList z d rest := by
              simp [namesDownloadList, hg, hs]
            have h2 : getPaths ([.warn ("Downloading " ++ name),
                .get (trimSlash name)] ++ Δ) =
                trimSlash name :: getPaths Δ := by
              simp [getPaths]
            refine ⟨[.warn ("Downloading " ++ name), .get (trimSlash name)]
              ++ Δ, ?_, ?_, ?_⟩
            · simp only [bulkNames, hg, hs, if_pos, Bool.false_eq_true,
                ite_false, apiDownload_none_ok srv token name s v hres,
                andThen]
              rw [hΔ]
              simp
            · rw [h1, List.map_cons, h2]
              exact cons_prefix_cons _ hpre
            · intro hfst
              simp only [bulkNames, hg, hs, if_pos, Bool.false_eq_true,
                ite_false, apiDownload_none_ok srv token name s v hres,
                andThen] at hfst
              rw [h1, List.map_cons, h2, hok hfst]
          · obtain ⟨Δ, hΔ, hpre, hok⟩ := ih { s with
              data := setKey s.data (trimSlash name) .null,
              events := s.events ++ [.warn ("Downloading " ++ name),
                .get (trimSlash name),
                .warn ("Ignoring " ++ ct ++ " content")] }
            have h1 : namesDownloadList z d ((name, item) :: rest) =
                name :: namesDownloadList z d rest := by
              simp [namesDownloadList, hg, hs]
            have h2 : getPaths ([.warn ("Downloading " ++ name),
                .get (trimSlash name),
                .warn ("Ignoring " ++ ct ++ " content")] ++ Δ) =
                trimSlash name :: getPaths Δ := by
              simp [getPaths]
            refine ⟨[.warn ("Downloading " ++ name), .get (trimSlash name),
              .warn ("Ignoring " ++ ct ++ " content")] ++ Δ, ?_, ?_, ?_⟩
            · simp only [bulkNames, hg, hs, if_pos, Bool.false_eq_true,
                ite_false, apiDownload_none_nonjson srv token name s ct hres,
                andThen]
              rw [hΔ]
              simp
            · rw [h1, List.map_cons, h2]
              exact cons_prefix_cons _ hpre
            · intro hfst
              simp only [bulkNames, hg, hs, if_pos, Bool.false_eq_true,
                ite_false, apiDownload_none_nonjson srv token name s ct hres,
                andThen] at hfst
              rw [h1, List.map_cons, h2, hok hfst]
          · refine ⟨[.warn ("Downloading " ++ name), .get (trimSlash name)],
              ?_, ?_, ?_⟩
            · simp [bulkNames, hg, hs, apiDownload_none_err srv token name s m
                hres, andThen]
            · refine ⟨(namesDownloadList z d rest).map trimSlash, ?_⟩
              simp [getPaths, namesDownloadList, hg, hs]
            · intro hfst
              simp [bulkNames, hg, hs, apiDownload_none_err srv token name s m
                hres, andThen] at hfst
      · obtain ⟨Δ, hΔ, hpre, hok⟩ := ih s
        refine ⟨Δ, ?_, ?_, ?_⟩
        · simpa [bulkNames, hg] using hΔ
        · simpa [namesDownloadList, hg] using hpre
        · intro hfst
          simp only [bulkNames, hg, Bool.false_eq_true, ite_false] at hfst
          simpa [namesDownloadList, hg] using hok hfst

/-- The GET requests of the whole bulk pass are (a prefix of, and on success
exactly) the trimmed download list over all documents. -/
theorem bulkDocs_shape (srv : Server) (token : String) (z d : Bool)
    (docs : List JVal) : ∀ s : St,
    ∃ Δ, (bulkDocs srv token z d docs s).2.events = s.events ++ Δ ∧
      getPaths Δ <+: (bulkDownloadList z d docs).map trimSlash ∧
      ((bulkDocs srv token z d docs s).1 = .ok () →
        getPaths Δ = (bulkDownloadList z d docs).map trimSlash) := by
  induction docs with
  | nil =>
      intro s
      exact ⟨[], by simp [bulkDocs], by simp [bulkDownloadList, getPaths],
        fun _ => by simp [bulkDownloadList, getPaths]⟩
  | cons doc rest ih =>
      intro s
      obtain ⟨Δ1, hΔ1, hpre1, hok1⟩ := bulkNames_shape srv token z d
        (jEntries (if jTruthy (jGet doc "paths") then jGet doc "paths"
          else .obj [])) s
      rcases hb : bulkNames srv token z d
          (jEntries (if jTruthy (jGet doc "paths") then jGet doc "paths"
            else .obj [])) s with ⟨res1, s1⟩
      rw [hb] at hΔ1 hok1
      cases res1 with
      | error m =>
          refine ⟨Δ1, ?_, ?_, ?_⟩
          · simpa [bulkDocs, andThen, hb] using hΔ1
          · exact hpre1.trans (by
              rw [bulkDownloadList, List.map_append]
              exact List.prefix_append _ _)
          · intro hfst
            simp [bulkDocs, andThen, hb] at hfst
      | ok u =>
          obtain ⟨Δ2, hΔ2, hpre2, hok2⟩ := ih s1
          have he1 : getPaths Δ1 =
              (namesDownloadList z d (jEntries (if jTruthy (jGet doc "paths")
                then jGet doc "paths" else .obj []))).map trimSlash :=
            hok1 rfl
          refine ⟨Δ1 ++ Δ2, ?_, ?_, ?_⟩
          · simp only [bulkDocs, andThen, hb]
            rw [hΔ2, hΔ1, List.append_assoc]
          · rw [getPaths_append, he1, bulkDownloadList, List.map_append]
            exact prefix_append_prefix hpre2
          · intro hfst
            simp only [bulkDocs, andThen, hb] at hfst
            rw [getPaths_append, he1, bulkDownloadList, List.map_append,
              hok2 hfst]

/-- Every template selected by the bulk loop passes the filter. -/
theorem mem_namesDownloadList {z d : Bool} {entries : List (String × JVal)}
    {u : String} (hu : u ∈ namesDownloadList z d entries) :
    shouldSkipName z d u = false := by
  induction entries with
  | nil => simp [namesDownloadList] at hu
  | cons nv rest ih =>
      obtain ⟨name, item⟩ := nv
      simp only [namesDownloadList] at hu
      by_cases hcond : (jTruthy (jGet item "get") &&
          !shouldSkipName z d name) = true
      · rw [if_pos hcond] at hu
        rcases List.mem_cons.mp hu with h | h
        · subst h
          simp at hcond
          exact hcond.2
        · exact ih h
      · rw [if_neg hcond] at hu
        exact ih hu

/-- Selected templates are declared keys of the entry list. -/
theorem mem_keys_of_mem_namesDownloadList {z d : Bool}
    {entries : List (String × JVal)} {u : String}
    (hu : u ∈ namesDownloadList z d entries) : u ∈ entries.map Prod.fst := by
  induction entries with
  | nil => simp [namesDownloadList] at hu
  | cons nv rest ih =>
      obtain ⟨name, item⟩ := nv
      simp only [namesDownloadList] at hu
      by_cases hcond : (jTruthy (jGet item "get") &&
          !shouldSkipName z d name) = true
      · rw [if_pos hcond] at hu
        rcases List.mem_cons.mp hu with h | h
        · simp [h]
        · simp [ih h]
      · rw [if_neg hcond] at hu
        simp [ih hu]

/-- The selected templates of one document form a sublist of its declared
keys. -/
theorem namesDownloadList_sublist (z d : Bool)
    (entries : List (String × JVal)) :
    List.Sublist (namesDownloadList z d entries) (entries.map Prod.fst) := by
  induction entries with
  | nil => simp [namesDownloadList]
  | cons nv rest ih =>
      obtain ⟨name, item⟩ := nv
      simp only [namesDownloadList, List.map_cons]
      by_cases hcond : (jTruthy (jGet item "get") &&
          !shouldSkipName z d name) = true
      · rw [if_pos hcond]
        exact List.Sublist.cons₂ name ih
      · rw [if_neg hcond]
        exact List.Sublist.cons name ih

/-- Every template selected by the bulk pass passes the filter. -/
theorem mem_bulkDownloadList {z d : Bool} {docs : List JVal} {u : String}
    (hu : u ∈ bulkDownloadList z d docs) : shouldSkipName z d u = false := by
  induction docs with
  | nil => simp [bulkDownloadList] at hu
  | cons doc rest ih =>
      simp only [bulkDownloadList] at hu
      rcases List.mem_append.mp hu with h | h
      · exact mem_namesDownloadList h
      · exact ih h

/-! ### Claim C3 -/

/-- C3: a path template on the skip-list or the localized-list always passes
the filter as "skip", is never selected for download by the bulk pass over
any documents, and (when no other declared template trims to the same request
path, and the incoming trace does not already hold it) no GET for it is ever
issued during the bulk pass. -/
theorem c3_skip_localized_never_bulk_downloaded (t : String)
    (ht : t ∈ skip ∨ t ∈ localized) (z d : Bool) (docs : List JVal)
    (srv : Server) (token : String) (s₀ : St)
    (hcol : ∀ u, u ∈ bulkDownloadList z d docs →
      trimSlash u = trimSlash t → u = t)
    (h₀ : trimSlash t ∉ getPaths s₀.events) :
    shouldSkipName z d t = true ∧
    t ∉ bulkDownloadList z d docs ∧
    trimSlash t ∉ getPaths (bulkDocs srv token z d docs s₀).2.events := by
  have hskip : shouldSkipName z d t = true := by
    rcases ht with h | h <;> simp [shouldSkipName, h]
  have hnot : t ∉ bulkDownloadList z d docs := by
    intro hm
    have := mem_bulkDownloadList hm
    rw [hskip] at this
    simp at this
  refine ⟨hskip, hnot, ?_⟩
  obtain ⟨Δ, hΔ, hpre, -⟩ := bulkDocs_shape srv token z d docs s₀
  rw [hΔ, getPaths_append]
  intro hmem
  rcases List.mem_append.mp hmem with hl | hr
  · exact h₀ hl
  · have hin := hpre.subset hr
    rcases List.mem_map.mp hin with ⟨u, hu, hequ⟩
    exact hnot (hcol u hu hequ ▸ hu)

/-- Witness for C3: the skip-listed `:id` template of the demo document set
is filtered, never selected, and never requested. -/
theorem c3_witness :
    shouldSkipName false false "/api/network/connections/:id" = true ∧
    "/api/network/connections/:id" ∉ bulkDownloadList false false [demoDoc] ∧
    trimSlash "/api/network/connections/:id" ∉
      getPaths (bulkDocs demoSrv "t" false false [demoDoc] emptySt).2.events :=
  c3_skip_localized_never_bulk_downloaded "/api/network/connections/:id"
    (Or.inl (by decide)) false false [demoDoc] demoSrv "t" emptySt
    (by decide) (by decide)

/-! ### Claim C4 -/

/-- C4: when the probed `zfcp` flag is false, no template matching the zfcp
marker is selected by the bulk pass (respectively `dasd`); when the flag is
true, the filter on any template degenerates to exactly the filter a template
without that marker faces; and every GET issued during the bulk pass is the
trimmed form of some selected template. -/
theorem c4_capability_gated_templates (z d : Bool) (docs : List JVal)
    (srv : Server) (token : String) (s₀ : St) :
    (z = false → ∀ u, u ∈ bulkDownloadList z d docs →
      strMatch u "zfcp" = false) ∧
    (d = false → ∀ u, u ∈ bulkDownloadList z d docs →
      strMatch u "dasd" = false) ∧
    (z = true → ∀ u, shouldSkipName z d u =
      (skip.contains u || localized.contains u ||
        (!d && strMatch u "dasd"))) ∧
    (d = true → ∀ u, shouldSkipName z d u =
      (skip.contains u || localized.contains u ||
        (!z && strMatch u "zfcp"))) ∧
    (∀ p, Event.get p ∈ (bulkDocs srv token z d docs s₀).2.events →
      Event.get p ∈ s₀.events ∨
      ∃ u, u ∈ bulkDownloadList z d docs ∧ p = trimSlash u) := by
  refine ⟨?_, ?_, ?_, ?_, ?_⟩
  · intro hz u hu
    have h := mem_bulkDownloadList hu
    subst hz
    simp [shouldSkipName] at h
    tauto
  · intro hd u hu
    have h := mem_bulkDownloadList hu
    subst hd
    simp [shouldSkipName] at h
    tauto
  · intro hz u
    subst hz
    simp [shouldSkipName]
  · intro hd u
    subst hd
    simp [shouldSkipName, Bool.or_assoc, Bool.or_comm, Bool.or_left_comm]
  · intro p hmem
    obtain ⟨Δ, hΔ, hpre, -⟩ := bulkDocs_shape srv token z d docs s₀
    rw [hΔ] at hmem
    rcases List.mem_append.mp hmem with hl | hr
    · exact Or.inl hl
    · have hin := hpre.subset (mem_get_iff_getPaths.mp hr)
      rcases List.mem_map.mp hin with ⟨u, hu, hequ⟩
      exact Or.inr ⟨u, hu, hequ.symm⟩

/-- Witness for C4: on the demo document, with both flags false, the selected
template `/api/test` matches neither capability marker. -/
theorem c4_witness :
    strMatch "/api/test" "zfcp" = false ∧
    strMatch "/api/test" "dasd" = false :=
  ⟨(c4_capability_gated_templates false false [demoDoc] demoSrv "t"
      emptySt).1 rfl "/api/test" (by decide),
   (c4_capability_gated_templates false false [demoDoc] demoSrv "t"
      emptySt).2.1 rfl "/api/test" (by decide)⟩

/-! ### Claim C2 -/

/-- Counterexample to C2 as stated: two OpenAPI documents both declaring
`/api/test` cause the bulk pass to issue the GET twice — there is no
cross-document deduplication of path templates. -/
theorem c2_counterexample :
    ((getPaths (mainRun demoSrv [demoDoc, demoDoc] none).events).count
      "/api/test") = 2 := by decide

/-- The per-document selection has no duplicates when the document's declared
keys have none, so its count of any template is bounded by the declaration
count. -/
theorem count_namesDownloadList_le (z d : Bool)
    (entries : List (String × JVal)) (hnd : (entries.map Prod.fst).Nodup)
    (t : String) :
    (namesDownloadList z d entries).count t ≤
      (if (entries.map Prod.fst).contains t then 1 else 0) := by
  by_cases hct : (entries.map Prod.fst).contains t = true
  · rw [if_pos hct]
    have hnd' : (namesDownloadList z d entries).Nodup :=
      List.Nodup.sublist (namesDownloadList_sublist z d entries) hnd
    exact List.nodup_iff_count_le_one.mp hnd' t
  · rw [if_neg hct]
    rw [Nat.le_zero, List.count_eq_zero]
    intro hmem
    exact hct (by simpa using mem_keys_of_mem_namesDownloadList hmem)

/-- The bulk selection counts any template at most once per declaring
document. -/
theorem count_bulkDownloadList_le (z d : Bool) (docs : List JVal)
    (hnodup : ∀ doc ∈ docs, ((jEntries (if jTruthy (jGet doc "paths")
      then jGet doc "paths" else .obj [])).map Prod.fst).Nodup)
    (t : String) :
    (bulkDownloadList z d docs).count t ≤
      docs.countP (fun doc => ((jEntries (if jTruthy (jGet doc "paths")
        then jGet doc "paths" else .obj [])).map Prod.fst).contains t) := by
  induction docs with
  | nil => simp [bulkDownloadList]
  | cons doc rest ih =>
      simp only [bulkDownloadList, List.count_append, List.countP_cons]
      have h1 := count_namesDownloadList_le z d
        (jEntries (if jTruthy (jGet doc "paths") then jGet doc "paths"
          else .obj []))
        (hnodup doc (List.mem_cons_self doc rest)) t
      have h2 := ih (fun doc2 hd2 => hnodup doc2 (List.mem_cons_of_mem doc hd2))
      omega

/-- C2 amended: there is no deduplication across documents — each distinct
path template is downloaded at most once per document that declares it with a
GET (within one parsed document keys are unique), so when the bulk pass
completes, its GET trace is exactly the concatenation of each document's
selected templates (trimmed, in order), and the number of downloads of a
template is bounded by the number of documents declaring it. -/
theorem c2_amended_once_per_document (z d : Bool) (docs : List JVal)
    (srv : Server) (token : String) (s₀ : St)
    (hrun : (bulkDocs srv token z d docs s₀).1 = .ok ())
    (hnodup : ∀ doc ∈ docs, ((jEntries (if jTruthy (jGet doc "paths")
      then jGet doc "paths" else .obj [])).map Prod.fst).Nodup) :
    (∃ Δ, (bulkDocs srv token z d docs s₀).2.events = s₀.events ++ Δ ∧
      getPaths Δ = (bulkDownloadList z d docs).map trimSlash) ∧
    ∀ t, (bulkDownloadList z d docs).count t ≤
      docs.countP (fun doc => ((jEntries (if jTruthy (jGet doc "paths")
        then jGet doc "paths" else .obj [])).map Prod.fst).contains t) := by
  constructor
  · obtain ⟨Δ, hΔ, -, hok⟩ := bulkDocs_shape srv token z d docs s₀
    exact ⟨Δ, hΔ, hok hrun⟩
  · exact count_bulkDownloadList_le z d docs hnodup

/-- Witness for the amended C2: over two copies of the demo document, the
selected template is counted twice — once per declaring document. -/
theorem c2_amended_witness :
    (bulkDownloadList false false [demoDoc, demoDoc]).count "/api/test" ≤
      [demoDoc, demoDoc].countP (fun doc =>
        ((jEntries (if jTruthy (jGet doc "paths") then jGet doc "paths"
          else .obj [])).map Prod.fst).contains "/api/test") :=
  (c2_amended_once_per_document false false [demoDoc, demoDoc] demoSrv "t"
    emptySt rfl (by decide)).2 "/api/test"

/-! ### Claim C1 -/

/-- Counterexample to C1 as stated: with `/api/a` failing mid-bulk-pass, the
run aborts — the later endpoint `/api/b` of the same document is never
requested, no special/extra/localized pass runs (the full trace is listed),
no output is written, and the process exits with status 1. -/
theorem c1_counterexample :
    (mainRun c1Srv c1Docs none).exitCode = 1 ∧
    (mainRun c1Srv c1Docs none).events =
      [.postAuth, .get "/api/storage/zfcp/supported",
       .get "/api/storage/dasd/supported",
       .warn "Downloading /api/a", .get "/api/a",
       .warn "Download failed"] ∧
    Event.get "/api/b" ∉ (mainRun c1Srv c1Docs none).events := by
  refine ⟨by decide, by decide, by decide⟩

theorem extendsNoWrite_preserve {s s' : St} (h : extendsNoWrite s s')
    (hs : noWrite s.events) : noWrite s'.events := by
  obtain ⟨Δ, hΔ, hN⟩ := h
  rw [hΔ]
  exact noWrite_append hs hN

/-- When the orchestration rejects, the trace accumulated so far holds no
output-write event: the serialization step is only reached after every pass
succeeded. -/
theorem readOpenAPI_error_noWrite (srv : Server) (docs : List JVal)
    (output : Option String) (m : String)
    (h : (readOpenAPI srv docs output).1 = .error m) :
    noWrite (readOpenAPI srv docs output).2.events := by
  simp only [readOpenAPI] at h ⊢
  rcases hlog : login srv ⟨[], [], srv.initLocale⟩ with ⟨res1, s1⟩
  have hw1 : noWrite s1.events := by
    have he := login_extends srv ⟨[], [], srv.initLocale⟩
    rw [hlog] at he
    exact extendsNoWrite_preserve he (by intro f hf; simp at hf)
  cases res1 with
  | error m1 => exact hw1
  | ok token =>
  simp only [andThen] at h ⊢
  rcases hz : supported srv "zfcp" token s1 with ⟨res2, s2⟩
  have hw2 : noWrite s2.events := by
    have he := supported_extends srv "zfcp" token s1
    rw [hz] at he
    exact extendsNoWrite_preserve he hw1
  cases res2 with
  | error m2 => exact hw2
  | ok zfcp =>
  simp only [andThen] at h ⊢
  rcases hd : supported srv "dasd" token s2 with ⟨res3, s3⟩
  have hw3 : noWrite s3.events := by
    have he := supported_extends srv "dasd" token s2
    rw [hd] at he
    exact extendsNoWrite_preserve he hw2
  cases res3 with
  | error m3 => exact hw3
  | ok dasd =>
  simp only [andThen] at h ⊢
  rcases hb : bulkDocs srv token zfcp dasd docs s3 with ⟨res4, s4⟩
  have hw4 : noWrite s4.events := by
    have he := bulkDocs_extends srv token zfcp dasd docs s3
    rw [hb] at he
    exact extendsNoWrite_preserve he hw3
  cases res4 with
  | error m4 => exact hw4
  | ok u4 =>
  simp only [andThen] at h ⊢
  rcases hsp : specialPaths srv token s4 with ⟨res5, s5⟩
  have hw5 : noWrite s5.events := by
    have he := specialPaths_extends srv token s4
    rw [hsp] at he
    exact extendsNoWrite_preserve he hw4
  cases res5 with
  | error m5 => exact hw5
  | ok u5 =>
  simp only [andThen] at h ⊢
  rcases hx : extraPaths srv token s5 with ⟨res6, s6⟩
  have hw6 : noWrite s6.events := by
    have he := extraPaths_extends srv token s5
    rw [hx] at he
    exact extendsNoWrite_preserve he hw5
  cases res6 with
  | error m6 => exact hw6
  | ok u6 =>
  simp only [andThen] at h ⊢
  rcases hl : localizedPaths srv token s6 with ⟨res7, s7⟩
  have hw7 : noWrite s7.events := by
    have he := localizedPaths_extends srv token s6
    rw [hl] at he
    exact extendsNoWrite_preserve he hw6
  cases res7 with
  | error m7 => exact hw7
  | ok u7 =>
      simp only [hlog, hz, hd, hb, hsp, hx, hl] at h
      simp at h

/-- C1 amended: any individual request failure during the bulk, special,
extra or localized passes is not swallowed — it propagates to the top-level
handler, which logs the error message as the last diagnostic line and exits
with status 1; subsequent endpoints and passes never run, and no output is
ever written. -/
theorem c1_amended_failure_aborts_run (srv : Server) (docs : List JVal)
    (output : Option String) (m : String)
    (h : (readOpenAPI srv docs output).1 = .error m) :
    (mainRun srv docs output).exitCode = 1 ∧
    noWrite (mainRun srv docs output).events ∧
    (mainRun srv docs output).events.getLast? = some (.warn m) := by
  have hnw := readOpenAPI_error_noWrite srv docs output m h
  rcases hr : readOpenAPI srv docs output with ⟨res, s⟩
  rw [hr] at h hnw
  cases res with
  | ok u => simp at h
  | error m' =>
      have hm : m' = m := by simpa using h
      subst hm
      refine ⟨by simp [mainRun, hr], ?_, by simp [mainRun, hr]⟩
      simp only [mainRun, hr]
      exact noWrite_append hnw (by intro f hf; simp at hf)

/-- Witness for the amended C1 at the concrete failing server. -/
theorem c1_amended_witness :
    (mainRun c1Srv c1Docs none).exitCode = 1 ∧
    (mainRun c1Srv c1Docs none).events.getLast? =
      some (.warn "Download failed") :=
  ⟨(c1_amended_failure_aborts_run c1Srv c1Docs none "Download failed" rfl).1,
   (c1_amended_failure_aborts_run c1Srv c1Docs none "Download failed"
      rfl).2.2⟩

end Agama
